import Mathlib

/-!
Shallow embedding of the notes-tui terminal application
(src/notes-tui/src: models/note.py, models/notebook.py,
storage/repository.py, tui/input_handler.py, app.py) and proofs about
the behaviour its specification claims.

Modelling conventions:
* Python strings are lists of characters (`Str`).
* Timestamps (`datetime.now()`) are abstract `Nat` instants; every
  operation that reads the clock takes the current instant `now` as an
  explicit argument.
* Generated identifiers (`uuid`) are passed in as explicit `fresh_id`
  arguments.
* The repository's JSON file is modelled by the `disk_notebooks` /
  `disk_notes` fields together with a `saves` counter: `Repo.save`
  copies the in-memory lists to the disk fields and bumps the counter,
  so "a persist happened" is observable in the state.
* Python `sorted(..., key=..., reverse=True)` is a stable sort; it is
  modelled by `List.insertionSort` with the reflexive descending
  relation, which is also stable, hence produces the same list.
-/

namespace NotesTui

/-- Python `str` modelled as a list of characters. -/
abbrev Str := List Char

/-- Python `str.lower()` (character-wise lowercasing). -/
def lower (s : Str) : Str := s.map Char.toLower

/-- Python `"\n".join(lines)` from `App._save_note` / `App._render_editor_view`. -/
def joinLines (lines : List Str) : Str := List.intercalate ['\n'] lines

/-- models/note.py: the `Note` dataclass. -/
structure Note where
  id : Str
  title : Str
  content : Str
  notebook_id : Str
  created_at : Nat
  updated_at : Nat
deriving DecidableEq

/-- models/note.py `Note.update_content`: set title and content, refresh
`updated_at` from the clock. -/
def Note.update_content (n : Note) (title content : Str) (now : Nat) : Note :=
  { n with title := title, content := content, updated_at := now }

/-- models/note.py `Note.move_to_notebook`. -/
def Note.move_to_notebook (n : Note) (notebook_id : Str) (now : Nat) : Note :=
  { n with notebook_id := notebook_id, updated_at := now }

/-- models/note.py `Note.matches_search`: the lowercased query occurs as a
substring of the lowercased title or of the lowercased content (Python
`in` on strings is contiguous-substring containment). -/
def Note.matches_search (n : Note) (query : Str) : Bool :=
  let query_lower := lower query
  decide (query_lower <:+: lower n.title) || decide (query_lower <:+: lower n.content)

/-- models/notebook.py: the `Notebook` dataclass. -/
structure Notebook where
  id : Str
  name : Str
  created_at : Nat
  updated_at : Nat
deriving DecidableEq

/-- models/notebook.py `Notebook.create_default`. -/
def Notebook.create_default (now : Nat) : Notebook :=
  { id := "default".toList, name := "Default".toList, created_at := now, updated_at := now }

/-- Modelling default used for Python list indexing that never goes out of
range under the claims' hypotheses (Python would raise `IndexError`). -/
instance : Inhabited Notebook := ⟨Notebook.create_default 0⟩

/-- Modelling default, as for `Notebook` (never reached under the claims'
hypotheses). -/
instance : Inhabited Note :=
  ⟨{ id := [], title := [], content := [], notebook_id := [], created_at := 0, updated_at := 0 }⟩

/-- Python list indexing `l[i]`: non-negative indices from the front,
negative indices from the back. An out-of-range access raises in Python;
here it yields the default and is never reached under the claims'
bounds hypotheses. -/
def pyIndex {α : Type} [Inhabited α] (l : List α) (i : Int) : α :=
  if 0 ≤ i then l.getD i.toNat default else l.getD (l.length - (-i).toNat) default

/-- storage/repository.py: the `Repository`. `notebooks`/`notes` are the
in-memory lists; `disk_notebooks`/`disk_notes` mirror the JSON data file
and `saves` counts how many full persists have been performed. -/
structure Repo where
  notebooks : List Notebook
  notes : List Note
  disk_notebooks : List Notebook
  disk_notes : List Note
  saves : Nat
deriving DecidableEq

/-- repository.py `Repository.save`: write the whole in-memory state to the
data file. -/
def Repo.save (r : Repo) : Repo :=
  { r with disk_notebooks := r.notebooks, disk_notes := r.notes, saves := r.saves + 1 }

/-- The sort key used throughout repository.py:
`sorted(notes, key=lambda n: n.updated_at, reverse=True)`. -/
def updatedDesc (a b : Note) : Prop := b.updated_at ≤ a.updated_at

instance : DecidableRel updatedDesc :=
  fun a b => inferInstanceAs (Decidable (b.updated_at ≤ a.updated_at))

instance : IsTotal Note updatedDesc := ⟨fun a b => Nat.le_total b.updated_at a.updated_at⟩

instance : IsTrans Note updatedDesc := ⟨fun _ _ _ h1 h2 => Nat.le_trans h2 h1⟩

/-- Python's stable `sorted(..., key=lambda n: n.updated_at, reverse=True)`,
modelled by the (equally stable) insertion sort on the descending relation. -/
def sortByUpdatedDesc (l : List Note) : List Note := List.insertionSort updatedDesc l

/-- repository.py `Repository.get_all_notebooks` (returns a copy of the list). -/
def Repo.get_all_notebooks (r : Repo) : List Notebook := r.notebooks

/-- repository.py `Repository.get_notebook`: first notebook with the id. -/
def Repo.get_notebook (r : Repo) (notebook_id : Str) : Option Notebook :=
  r.notebooks.find? (fun nb => nb.id == notebook_id)

/-- repository.py `Repository.create_notebook`. -/
def Repo.create_notebook (r : Repo) (name : Str) (fresh_id : Str) (now : Nat) :
    Notebook × Repo :=
  let notebook : Notebook := { id := fresh_id, name := name, created_at := now, updated_at := now }
  (notebook, ({ r with notebooks := r.notebooks ++ [notebook] }).save)

/-- repository.py `Repository.delete_notebook`: refuse the reserved default
id; otherwise move the notebook's notes to the default notebook, drop the
notebook and persist. -/
def Repo.delete_notebook (r : Repo) (notebook_id : Str) (now : Nat) : Bool × Repo :=
  if notebook_id = "default".toList then (false, r)
  else
    let notes := r.notes.map fun note =>
      if note.notebook_id = notebook_id then note.move_to_notebook ("default".toList) now
      else note
    let notebooks := r.notebooks.filter fun nb => nb.id != notebook_id
    (true, ({ r with notes := notes, notebooks := notebooks }).save)

/-- repository.py `Repository.get_note_count_for_notebook`. -/
def Repo.get_note_count_for_notebook (r : Repo) (notebook_id : Str) : Nat :=
  (r.notes.filter fun n => n.notebook_id == notebook_id).length

/-- repository.py `Repository.get_all_notes`. -/
def Repo.get_all_notes (r : Repo) : List Note := sortByUpdatedDesc r.notes

/-- repository.py `Repository.get_notes_by_notebook`. -/
def Repo.get_notes_by_notebook (r : Repo) (notebook_id : Str) : List Note :=
  sortByUpdatedDesc (r.notes.filter fun n => n.notebook_id == notebook_id)

/-- repository.py `Repository.get_note`: first note with the id. -/
def Repo.get_note (r : Repo) (note_id : Str) : Option Note :=
  r.notes.find? (fun n => n.id == note_id)

/-- repository.py `Repository.create_note`. -/
def Repo.create_note (r : Repo) (title content notebook_id : Str) (fresh_id : Str)
    (now : Nat) : Note × Repo :=
  let note : Note := { id := fresh_id, title := title, content := content,
                       notebook_id := notebook_id, created_at := now, updated_at := now }
  (note, ({ r with notes := r.notes ++ [note] }).save)

/-- The loop inside repository.py `Repository.update_note`: replace the first
note with the given note's id, reporting whether one was found. -/
def replaceById : List Note → Note → List Note × Bool
  | [], _ => ([], false)
  | n :: rest, note =>
    if n.id = note.id then (note :: rest, true)
    else
      let r := replaceById rest note
      (n :: r.1, r.2)

/-- repository.py `Repository.update_note`: replace the stored note with the
same id and persist; silently do nothing when the id is absent. -/
def Repo.update_note (r : Repo) (note : Note) : Repo :=
  let res := replaceById r.notes note
  if res.2 then ({ r with notes := res.1 }).save else r

/-- repository.py `Repository.delete_note`: drop notes with the id; persist
and report true only if the list shrank. -/
def Repo.delete_note (r : Repo) (note_id : Str) : Bool × Repo :=
  let notes2 := r.notes.filter fun n => n.id != note_id
  if notes2.length < r.notes.length then (true, ({ r with notes := notes2 }).save)
  else (false, { r with notes := notes2 })

/-- repository.py `Repository.search_notes`: empty query yields no results;
otherwise the matching notes sorted by `updated_at` descending. -/
def Repo.search_notes (r : Repo) (query : Str) : List Note :=
  if query = [] then []
  else sortByUpdatedDesc (r.notes.filter fun note => note.matches_search query)

/-- tui/input_handler.py: the `Key` enumeration. -/
inductive Key
  | UP | DOWN | LEFT | RIGHT | HOME | END | PAGE_UP | PAGE_DOWN
  | ENTER | TAB | ESCAPE | BACKSPACE | DELETE
  | CTRL_C | CTRL_D | CTRL_S | CTRL_Q | CTRL_N
  | CHAR | UNKNOWN
deriving DecidableEq

/-- tui/input_handler.py: the `KeyEvent` dataclass. -/
structure KeyEvent where
  key : Key
  char : Str := []
deriving DecidableEq

/-- Modelled from Python `str.isprintable` on a single character: true iff
the character is not a control character. (Only ever used as a dispatch
guard; the exact Unicode category predicate is immaterial to the claims.) -/
def charPrintable (c : Char) : Bool := 32 ≤ c.toNat && c.toNat != 127

/-- tui/input_handler.py `KeyEvent.is_printable`. -/
def KeyEvent.is_printable (e : KeyEvent) : Bool :=
  e.key == Key.CHAR && e.char.length == 1 && e.char.all charPrintable

/-- Input to the decoder: the not-yet-consumed bytes of stdin, each tagged
with its absolute arrival instant in milliseconds, plus the current clock.
`select(timeout)` reports readiness iff the head byte's arrival lies within
`now + timeout`; waiting advances the clock (to the arrival instant on
success, past the timeout on failure). Already-arrived bytes are buffered,
so a later `select` sees them immediately. -/
structure DecSt where
  pending : List (Nat × Char)
  now : Nat
deriving DecidableEq

/-- tui/input_handler.py `InputHandler._has_input` (timeouts in ms: the
source's 0.1 / 0.05 / 0.01 seconds are 100 / 50 / 10). -/
def has_input (timeout : Nat) (st : DecSt) : Bool × DecSt :=
  match st.pending with
  | [] => (false, { st with now := st.now + timeout })
  | (t, _) :: _ =>
    if t ≤ st.now + timeout then (true, { st with now := max st.now t })
    else (false, { st with now := st.now + timeout })

/-- tui/input_handler.py `InputHandler._read_char`. -/
def read_char (st : DecSt) : Option Char × DecSt :=
  match st.pending with
  | [] => (none, st)
  | (t, c) :: rest => (some c, { pending := rest, now := max st.now t })

/-- tui/input_handler.py `InputHandler.ESCAPE_SEQUENCES`. -/
def ESCAPE_SEQUENCES : List (Str × Key) :=
  [("[A".toList, Key.UP), ("[B".toList, Key.DOWN), ("[C".toList, Key.RIGHT),
   ("[D".toList, Key.LEFT), ("[H".toList, Key.HOME), ("[F".toList, Key.END),
   ("[5~".toList, Key.PAGE_UP), ("[6~".toList, Key.PAGE_DOWN), ("[3~".toList, Key.DELETE),
   ("OP".toList, Key.UNKNOWN), ("OQ".toList, Key.UNKNOWN), ("OR".toList, Key.UNKNOWN),
   ("OS".toList, Key.UNKNOWN)]

/-- Membership test `seq in ESCAPE_SEQUENCES` plus the table lookup. -/
def seqLookup (seq : Str) : Option Key :=
  (ESCAPE_SEQUENCES.find? fun p => p.1 == seq).map (·.2)

/-- The checks after the accumulation loop of `_handle_escape_sequence`:
a recognised sequence maps through the table, anything else degrades to a
bare Escape. -/
def esc_finish (seq : Str) : KeyEvent :=
  match seqLookup seq with
  | some k => { key := k }
  | none => { key := Key.ESCAPE }

/-- The `while self._has_input(0.01)` accumulation loop of
`_handle_escape_sequence`: read a byte, extend `seq`, return on a table
match, stop after more than 6 bytes. -/
def esc_loop : List (Nat × Char) → Nat → Str → KeyEvent × DecSt
  | [], now, seq => (esc_finish seq, { pending := [], now := now + 10 })
  | (t, c) :: rest, now, seq =>
    if t ≤ now + 10 then
      let now2 := max now t
      let seq2 := seq ++ [c]
      match seqLookup seq2 with
      | some k => ({ key := k }, { pending := rest, now := now2 })
      | none =>
        if seq2.length > 6 then (esc_finish seq2, { pending := rest, now := now2 })
        else esc_loop rest now2 seq2
    else (esc_finish seq, { pending := (t, c) :: rest, now := now + 10 })

/-- tui/input_handler.py `InputHandler._handle_escape_sequence`: wait the
secondary ≈50ms timeout; nothing pending means a bare Escape, otherwise
accumulate with the ≈10ms inter-byte timeout. -/
def handle_escape_sequence (st : DecSt) : KeyEvent × DecSt :=
  let r := has_input 50 st
  if r.1 then esc_loop r.2.pending r.2.now []
  else ({ key := Key.ESCAPE }, r.2)

/-- tui/input_handler.py `InputHandler._handle_control_char`. -/
def handle_control_char (c : Char) : KeyEvent :=
  let code := c.toNat
  if code = 3 then { key := Key.CTRL_C }
  else if code = 4 then { key := Key.CTRL_D }
  else if code = 9 then { key := Key.TAB }
  else if code = 10 ∨ code = 13 then { key := Key.ENTER }
  else if code = 14 then { key := Key.CTRL_N }
  else if code = 17 then { key := Key.CTRL_Q }
  else if code = 19 then { key := Key.CTRL_S }
  else if code = 127 ∨ code = 8 then { key := Key.BACKSPACE }
  else { key := Key.UNKNOWN }

/-- tui/input_handler.py `InputHandler.read_key`. -/
def read_key (timeout : Nat) (st : DecSt) : Option KeyEvent × DecSt :=
  let r := has_input timeout st
  if r.1 then
    match read_char r.2 with
    | (none, st2) => (none, st2)
    | (some c, st2) =>
      if c = Char.ofNat 27 then
        let e := handle_escape_sequence st2
        (some e.1, e.2)
      else if c.toNat < 32 then (some (handle_control_char c), st2)
      else if c.toNat = 127 then (some { key := Key.BACKSPACE }, st2)
      else (some { key := Key.CHAR, char := [c] }, st2)
  else (none, r.2)

/-- app.py editor state: the fields `editor_content`, `cursor_line`,
`cursor_col`, `scroll_offset`, `editor_modified` of `App`, grouped.
`scroll_offset` is an `Int` because `_adjust_scroll` subtracts. -/
structure Editor where
  content : List Str
  cursor_line : Nat
  cursor_col : Nat
  scroll_offset : Int
  modified : Bool
deriving DecidableEq

/-- app.py `App._adjust_scroll` (`visible_height = self.screen.height - 8`
is passed in, as the terminal size is external). -/
def Editor.adjust_scroll (e : Editor) (visible_height : Int) : Editor :=
  if (e.cursor_line : Int) < e.scroll_offset then
    { e with scroll_offset := (e.cursor_line : Int) }
  else if (e.cursor_line : Int) ≥ e.scroll_offset + visible_height then
    { e with scroll_offset := (e.cursor_line : Int) - visible_height + 1 }
  else e

/-- app.py `App._insert_char` (the inserted `char` is `event.char`, a
one-character string on every call path). -/
def Editor.insert_char (e : Editor) (s : Str) : Editor :=
  let line := e.content.getD e.cursor_line []
  { e with
    content := e.content.set e.cursor_line
      (line.take e.cursor_col ++ s ++ line.drop e.cursor_col),
    cursor_col := e.cursor_col + 1,
    modified := true }

/-- app.py `App._insert_newline`. -/
def Editor.insert_newline (e : Editor) (vh : Int) : Editor :=
  let line := e.content.getD e.cursor_line []
  let before := line.take e.cursor_col
  let after := line.drop e.cursor_col
  let content2 := (e.content.set e.cursor_line before).insertIdx (e.cursor_line + 1) after
  ({ e with content := content2, cursor_line := e.cursor_line + 1,
            cursor_col := 0, modified := true }).adjust_scroll vh

/-- app.py `App._delete_char_before` (backspace; joins with the previous
line at column 0). -/
def Editor.delete_char_before (e : Editor) (vh : Int) : Editor :=
  if 0 < e.cursor_col then
    let line := e.content.getD e.cursor_line []
    { e with
      content := e.content.set e.cursor_line
        (line.take (e.cursor_col - 1) ++ line.drop e.cursor_col),
      cursor_col := e.cursor_col - 1,
      modified := true }
  else if 0 < e.cursor_line then
    let prev := e.content.getD (e.cursor_line - 1) []
    let curr := e.content.getD e.cursor_line []
    let content2 := (e.content.set (e.cursor_line - 1) (prev ++ curr)).eraseIdx e.cursor_line
    ({ e with content := content2, cursor_line := e.cursor_line - 1,
              cursor_col := prev.length, modified := true }).adjust_scroll vh
  else e

/-- app.py `App._delete_char_at` (delete key; joins with the next line at
end of line). -/
def Editor.delete_char_at (e : Editor) : Editor :=
  let line := e.content.getD e.cursor_line []
  if e.cursor_col < line.length then
    { e with
      content := e.content.set e.cursor_line
        (line.take e.cursor_col ++ line.drop (e.cursor_col + 1)),
      modified := true }
  else if e.cursor_line < e.content.length - 1 then
    let next := e.content.getD (e.cursor_line + 1) []
    { e with
      content := (e.content.set e.cursor_line (line ++ next)).eraseIdx (e.cursor_line + 1),
      modified := true }
  else e

/-- app.py `App._move_cursor_up`. -/
def Editor.move_cursor_up (e : Editor) (vh : Int) : Editor :=
  if 0 < e.cursor_line then
    ({ e with cursor_line := e.cursor_line - 1,
              cursor_col := min e.cursor_col (e.content.getD (e.cursor_line - 1) []).length
     }).adjust_scroll vh
  else e

/-- app.py `App._move_cursor_down`. -/
def Editor.move_cursor_down (e : Editor) (vh : Int) : Editor :=
  if e.cursor_line < e.content.length - 1 then
    ({ e with cursor_line := e.cursor_line + 1,
              cursor_col := min e.cursor_col (e.content.getD (e.cursor_line + 1) []).length
     }).adjust_scroll vh
  else e

/-- app.py `App._move_cursor_left`. -/
def Editor.move_cursor_left (e : Editor) (vh : Int) : Editor :=
  if 0 < e.cursor_col then { e with cursor_col := e.cursor_col - 1 }
  else if 0 < e.cursor_line then
    ({ e with cursor_line := e.cursor_line - 1,
              cursor_col := (e.content.getD (e.cursor_line - 1) []).length
     }).adjust_scroll vh
  else e

/-- app.py `App._move_cursor_right`. -/
def Editor.move_cursor_right (e : Editor) (vh : Int) : Editor :=
  let line := e.content.getD e.cursor_line []
  if e.cursor_col < line.length then { e with cursor_col := e.cursor_col + 1 }
  else if e.cursor_line < e.content.length - 1 then
    ({ e with cursor_line := e.cursor_line + 1, cursor_col := 0 }).adjust_scroll vh
  else e

/-- The text-editing dispatch of app.py `App._handle_editor_input` (the
part after the Escape and Ctrl+S early returns). -/
def edit_step (e : Editor) (ev : KeyEvent) (vh : Int) : Editor :=
  if ev.is_printable then e.insert_char ev.char
  else if ev.key = Key.ENTER then e.insert_newline vh
  else if ev.key = Key.BACKSPACE then e.delete_char_before vh
  else if ev.key = Key.DELETE then e.delete_char_at
  else if ev.key = Key.UP then e.move_cursor_up vh
  else if ev.key = Key.DOWN then e.move_cursor_down vh
  else if ev.key = Key.LEFT then e.move_cursor_left vh
  else if ev.key = Key.RIGHT then e.move_cursor_right vh
  else if ev.key = Key.HOME then { e with cursor_col := 0 }
  else if ev.key = Key.END then
    { e with cursor_col := (e.content.getD e.cursor_line []).length }
  else e

/-- app.py: the `AppState` enumeration. -/
inductive AppState
  | LIST | EDITOR | SEARCH | HELP | CONFIRM_DELETE
  | INPUT_NOTEBOOK | INPUT_NOTE_TITLE | QUIT_CONFIRM
deriving DecidableEq

/-- app.py `self.focus_panel` (the strings `'notebooks'` / `'notes'`). -/
inductive Panel
  | notebooks | notes
deriving DecidableEq

/-- app.py: the mutable fields of `App` (terminal-driver state such as
cursor visibility is control-sequence output, outside the data model).
`editing_note` holds the value of the Python object that is aliased into
`Repo.notes`; operations that write through the alias update both. -/
structure App where
  repo : Repo
  state : AppState
  running : Bool
  selected_notebook_idx : Int
  selected_note_idx : Int
  focus_panel : Panel
  editing_note : Option Note
  editor : Editor
  search_query : Str
  search_results : List Note
  search_selected_idx : Int
  input_buffer : Str
  status_message : Str
deriving DecidableEq

/-- app.py `App._start_editing`. -/
def App.start_editing (a : App) (note : Note) : App :=
  { a with
    editing_note := some note,
    editor := { content := if note.content ≠ [] then note.content.splitOn '\n' else [[]],
                cursor_line := 0, cursor_col := 0, scroll_offset := 0, modified := false },
    state := AppState.EDITOR }

/-- app.py `App._save_note`: join the editor lines, update the note
(title kept, content replaced, timestamp refreshed) and persist through
the repository. -/
def App.save_note (a : App) (now : Nat) : App :=
  match a.editing_note with
  | none => a
  | some note =>
    let content := joinLines a.editor.content
    let note2 := note.update_content note.title content now
    { a with
      editing_note := some note2,
      repo := a.repo.update_note note2,
      editor := { a.editor with modified := false },
      status_message := "Note saved".toList }

/-- app.py `App._update_search`. -/
def App.update_search (a : App) : App :=
  { a with search_results := a.repo.search_notes a.search_query, search_selected_idx := 0 }

/-- app.py: `char = event.char.lower() if event.key == Key.CHAR else ""`. -/
def eventLowerChar (ev : KeyEvent) : Str :=
  if ev.key = Key.CHAR then lower ev.char else []

/-- The locals at the top of app.py `App._handle_list_input`:
`notebooks = self.repo.get_all_notebooks()`. -/
def App.listNotebooks (a : App) : List Notebook := a.repo.get_all_notebooks

/-- `current_nb = notebooks[self.selected_notebook_idx] if notebooks else None`. -/
def App.listCurrentNb (a : App) : Option Notebook :=
  if a.listNotebooks ≠ [] then some (pyIndex a.listNotebooks a.selected_notebook_idx)
  else none

/-- `notes = self.repo.get_notes_by_notebook(current_nb.id) if current_nb else []`. -/
def App.listNotes (a : App) : List Note :=
  match a.listCurrentNb with
  | some nb => a.repo.get_notes_by_notebook nb.id
  | none => []

/-- app.py `App._handle_list_input`: the full elif dispatch, with the
handler's locals `notebooks`, `current_nb`, `notes`, `char` factored out
as `listNotebooks`, `listCurrentNb`, `listNotes`, `eventLowerChar`. Note
that the capital-N branch is unreachable, since the lowercased character
is compared against `'n'` first, exactly as in the source. -/
def App.handle_list_input (a : App) (ev : KeyEvent) : App :=
  if ev.key = Key.DOWN ∨ eventLowerChar ev = ['j'] then
    if a.focus_panel = Panel.notebooks then
      { a with
        selected_notebook_idx :=
          min (a.selected_notebook_idx + 1) ((a.listNotebooks.length : Int) - 1),
        selected_note_idx := 0 }
    else
      { a with
        selected_note_idx :=
          min (a.selected_note_idx + 1) (max 0 ((a.listNotes.length : Int) - 1)) }
  else if ev.key = Key.UP ∨ eventLowerChar ev = ['k'] then
    if a.focus_panel = Panel.notebooks then
      { a with selected_notebook_idx := max (a.selected_notebook_idx - 1) 0,
               selected_note_idx := 0 }
    else
      { a with selected_note_idx := max (a.selected_note_idx - 1) 0 }
  else if ev.key = Key.LEFT ∨ eventLowerChar ev = ['h'] then
    { a with focus_panel := Panel.notebooks }
  else if ev.key = Key.RIGHT ∨ eventLowerChar ev = ['l'] then
    { a with focus_panel := Panel.notes }
  else if ev.key = Key.TAB then
    { a with focus_panel := if a.focus_panel = Panel.notebooks then Panel.notes
                            else Panel.notebooks }
  else if eventLowerChar ev = ['n'] then
    { a with input_buffer := [], state := AppState.INPUT_NOTE_TITLE }
  else if ev.char = ['N'] then
    { a with input_buffer := [], state := AppState.INPUT_NOTEBOOK }
  else if eventLowerChar ev = ['e'] ∨ ev.key = Key.ENTER then
    if a.focus_panel = Panel.notes ∧ a.listNotes ≠ [] then
      a.start_editing (pyIndex a.listNotes a.selected_note_idx)
    else a
  else if eventLowerChar ev = ['d'] then
    if a.focus_panel = Panel.notes ∧ a.listNotes ≠ [] then
      { a with state := AppState.CONFIRM_DELETE }
    else
      match a.listCurrentNb with
      | some nb =>
        if a.focus_panel = Panel.notebooks ∧ nb.id ≠ "default".toList then
          { a with state := AppState.CONFIRM_DELETE }
        else a
      | none => a
  else if eventLowerChar ev = ['/'] then
    { a with search_query := [], search_results := [], search_selected_idx := 0,
             state := AppState.SEARCH }
  else if eventLowerChar ev = ['?'] then { a with state := AppState.HELP }
  else if eventLowerChar ev = ['q'] ∨ ev.key = Key.CTRL_Q then
    { a with state := AppState.QUIT_CONFIRM }
  else if ev.key = Key.CTRL_C then { a with running := false }
  else a

/-- app.py `App._handle_editor_input`: Escape saves first when modified and
always returns to the list view; Ctrl+S saves; everything else is the
text-editing dispatch (`edit_step`). -/
def App.handle_editor_input (a : App) (ev : KeyEvent) (now : Nat) (vh : Int) : App :=
  if ev.key = Key.ESCAPE then
    let a2 := if a.editor.modified then a.save_note now else a
    { a2 with state := AppState.LIST }
  else if ev.key = Key.CTRL_S then a.save_note now
  else { a with editor := edit_step a.editor ev vh }

/-- app.py `App._handle_search_input`. -/
def App.handle_search_input (a : App) (ev : KeyEvent) : App :=
  if ev.key = Key.ESCAPE then { a with state := AppState.LIST }
  else if ev.key = Key.ENTER then
    if a.search_results ≠ [] then
      a.start_editing (pyIndex a.search_results a.search_selected_idx)
    else a
  else if ev.key = Key.DOWN ∨ ev.key = Key.TAB then
    if a.search_results ≠ [] then
      { a with search_selected_idx :=
          (a.search_selected_idx + 1) % (a.search_results.length : Int) }
    else a
  else if ev.key = Key.UP then
    if a.search_results ≠ [] then
      { a with search_selected_idx :=
          (a.search_selected_idx - 1) % (a.search_results.length : Int) }
    else a
  else if ev.is_printable then
    ({ a with search_query := a.search_query ++ ev.char }).update_search
  else if ev.key = Key.BACKSPACE ∧ a.search_query ≠ [] then
    ({ a with search_query := a.search_query.dropLast }).update_search
  else a

/-- app.py `App._handle_delete_confirm_input`. -/
def App.handle_delete_confirm_input (a : App) (ev : KeyEvent) (now : Nat) : App :=
  let char := eventLowerChar ev
  if char = ['y'] then
    let a2 :=
      if a.focus_panel = Panel.notes then
        let notebooks := a.repo.get_all_notebooks
        let current_nb := pyIndex notebooks a.selected_notebook_idx
        let notes := a.repo.get_notes_by_notebook current_nb.id
        if notes ≠ [] then
          let r := a.repo.delete_note (pyIndex notes a.selected_note_idx).id
          { a with repo := r.2, selected_note_idx := max 0 (a.selected_note_idx - 1),
                   status_message := "Note deleted".toList }
        else a
      else
        let notebooks := a.repo.get_all_notebooks
        if (pyIndex notebooks a.selected_notebook_idx : Notebook).id ≠ "default".toList then
          let r := a.repo.delete_notebook (pyIndex notebooks a.selected_notebook_idx : Notebook).id now
          { a with repo := r.2, selected_notebook_idx := 0,
                   status_message := "Notebook deleted".toList }
        else a
    { a2 with state := AppState.LIST }
  else if char = ['n'] ∨ ev.key = Key.ESCAPE then { a with state := AppState.LIST }
  else a

/-- app.py `App._handle_quit_confirm_input`. -/
def App.handle_quit_confirm_input (a : App) (ev : KeyEvent) : App :=
  let char := eventLowerChar ev
  if char = ['y'] then { a with running := false }
  else if char = ['n'] ∨ ev.key = Key.ESCAPE then { a with state := AppState.LIST }
  else a

/-- app.py `App._handle_input_dialog`: note that on Enter the callback runs
first and `self.state = AppState.LIST` is assigned afterwards,
unconditionally — exactly as in the source. -/
def App.handle_input_dialog (a : App) (ev : KeyEvent) (callback : App → Str → App) : App :=
  if ev.key = Key.ESCAPE then
    { a with input_buffer := [], state := AppState.LIST }
  else if ev.key = Key.ENTER then
    let a2 := if a.input_buffer ≠ [] then callback a a.input_buffer else a
    { a2 with input_buffer := [], state := AppState.LIST }
  else if ev.is_printable then { a with input_buffer := a.input_buffer ++ ev.char }
  else if ev.key = Key.BACKSPACE ∧ a.input_buffer ≠ [] then
    { a with input_buffer := a.input_buffer.dropLast }
  else a

/-- app.py `App._create_notebook_callback`. -/
def App.create_notebook_callback (a : App) (name : Str) (fresh_id : Str) (now : Nat) : App :=
  let r := a.repo.create_notebook name fresh_id now
  { a with repo := r.2, status_message := "Created notebook: ".toList ++ name }

/-- app.py `App._create_note_callback`: create the note in the currently
selected notebook and start editing it. -/
def App.create_note_callback (a : App) (title : Str) (fresh_id : Str) (now : Nat) : App :=
  let notebooks := a.repo.get_all_notebooks
  let current_nb : Notebook := pyIndex notebooks a.selected_notebook_idx
  let r := a.repo.create_note title [] current_nb.id fresh_id now
  ({ a with repo := r.2 }).start_editing r.1

/-- app.py `App._handle_input` after a key event has been decoded: clear the
status message, then dispatch on the current state. -/
def App.handle_input (a0 : App) (ev : KeyEvent) (fresh_id : Str) (now : Nat) (vh : Int) : App :=
  let a := { a0 with status_message := [] }
  match a.state with
  | AppState.LIST => a.handle_list_input ev
  | AppState.EDITOR => a.handle_editor_input ev now vh
  | AppState.SEARCH => a.handle_search_input ev
  | AppState.HELP => { a with state := AppState.LIST }
  | AppState.CONFIRM_DELETE => a.handle_delete_confirm_input ev now
  | AppState.INPUT_NOTEBOOK =>
    a.handle_input_dialog ev (fun x name => x.create_notebook_callback name fresh_id now)
  | AppState.INPUT_NOTE_TITLE =>
    a.handle_input_dialog ev (fun x title => x.create_note_callback title fresh_id now)
  | AppState.QUIT_CONFIRM => a.handle_quit_confirm_input ev

/-- The application-data effect of one pass of app.py `App._render`. All
renderer methods only read application data and append positioned writes to
the screen's frame buffer, with one exception:
`App._render_editor_view` assigns
`self.editing_note.content = "\n".join(self.editor_content)` before
delegating to the renderer. That Python object is aliased into the
repository's in-memory note list, so the assignment is also visible there;
no repository method is called, so nothing is persisted. -/
def App.render_step (a : App) : App :=
  match a.state, a.editing_note with
  | AppState.EDITOR, some note =>
    let content2 := joinLines a.editor.content
    { a with
      editing_note := some { note with content := content2 },
      repo := { a.repo with
                notes := a.repo.notes.map fun n =>
                  if n.id = note.id then { n with content := content2 } else n } }
  | _, _ => a

/-! Concrete fixtures used by witnesses and counterexamples. -/

/-- The reserved default notebook. -/
def nbDefault : Notebook := Notebook.create_default 0

/-- A second, deletable notebook. -/
def nbWork : Notebook :=
  { id := "work".toList, name := "Work".toList, created_at := 0, updated_at := 0 }

/-- A note in the default notebook whose title matches the query `shop`. -/
def noteShopping : Note :=
  { id := "n1".toList, title := "Shopping List".toList, content := "milk".toList,
    notebook_id := "default".toList, created_at := 0, updated_at := 2 }

/-- A note in the default notebook that does not match the query `shop`. -/
def noteMeeting : Note :=
  { id := "n2".toList, title := "Meeting Notes".toList, content := "agenda".toList,
    notebook_id := "default".toList, created_at := 0, updated_at := 1 }

/-- A note assigned to the work notebook. -/
def noteW1 : Note :=
  { id := "w1".toList, title := "Sprint".toList, content := [],
    notebook_id := "work".toList, created_at := 0, updated_at := 3 }

/-- A second note assigned to the work notebook. -/
def noteW2 : Note :=
  { id := "w2".toList, title := "Retro".toList, content := [],
    notebook_id := "work".toList, created_at := 0, updated_at := 4 }

/-- A repository with the default notebook and two notes. -/
def repo0 : Repo :=
  { notebooks := [nbDefault], notes := [noteShopping, noteMeeting],
    disk_notebooks := [nbDefault], disk_notes := [noteShopping, noteMeeting], saves := 0 }

/-- A repository with a deletable `work` notebook holding two notes. -/
def repoW : Repo :=
  { notebooks := [nbDefault, nbWork], notes := [noteW1, noteW2],
    disk_notebooks := [nbDefault, nbWork], disk_notes := [noteW1, noteW2], saves := 0 }

/-- A baseline application state in the list view over `repo0`. -/
def app0 : App :=
  { repo := repo0, state := AppState.LIST, running := true,
    selected_notebook_idx := 0, selected_note_idx := 0, focus_panel := Panel.notes,
    editing_note := none,
    editor := { content := [[]], cursor_line := 0, cursor_col := 0,
                scroll_offset := 0, modified := false },
    search_query := [], search_results := [], search_selected_idx := 0,
    input_buffer := [], status_message := [] }

/-- `app0` in the note-title prompt with the buffer holding `Test`. -/
def appTitle : App := { app0 with state := AppState.INPUT_NOTE_TITLE, input_buffer := "Test".toList }

/-- The note that `_create_note_callback` creates from `appTitle` when the
fresh id is `note9` and the clock reads 7. -/
def noteTest : Note :=
  { id := "note9".toList, title := "Test".toList, content := [],
    notebook_id := "default".toList, created_at := 7, updated_at := 7 }

/-! ## C1 — creating a note from the title prompt -/

/-- C1: evaluating the code at the failing input. In the note-title input
view with buffer `Test`, pressing Enter creates the note with the buffered
title in the selected (default) notebook, sets it as the note being edited
and clears the buffer — but the application ends in the LIST state, not in
the EDITOR state: `_handle_input_dialog` assigns `state = LIST` after the
callback returns, overwriting the EDITOR state that `_start_editing` set.
The claimed direct transition to the editor does not happen. -/
theorem C1_enter_remains_in_list_view :
    (appTitle.handle_input { key := Key.ENTER } ("note9".toList) 7 16).state = AppState.LIST
    ∧ (appTitle.handle_input { key := Key.ENTER } ("note9".toList) 7 16).state ≠ AppState.EDITOR
    ∧ noteTest ∈ (appTitle.handle_input { key := Key.ENTER } ("note9".toList) 7 16).repo.notes
    ∧ (appTitle.handle_input { key := Key.ENTER } ("note9".toList) 7 16).editing_note
        = some noteTest
    ∧ (appTitle.handle_input { key := Key.ENTER } ("note9".toList) 7 16).input_buffer = [] := by
  decide

/-! ## C10 — delete_note is an atomic no-op on an unknown id -/

/-- C10: `delete_note` returns true iff a note with the id is stored; when
it returns false, the repository — including the modelled data file and the
persist counter — is entirely unchanged. -/
theorem C10_delete_note (r : Repo) (note_id : Str) :
    ((r.delete_note note_id).1 = true ↔ ∃ n ∈ r.notes, n.id = note_id)
    ∧ ((r.delete_note note_id).1 = false → (r.delete_note note_id).2 = r) := by
  have hiff : ((r.notes.filter fun n => n.id != note_id).length < r.notes.length)
      ↔ ∃ n ∈ r.notes, n.id = note_id := by
    rw [List.length_filter_lt_length_iff_exists]
    constructor
    · rintro ⟨x, hx, hpx⟩
      exact ⟨x, hx, by simpa using hpx⟩
    · rintro ⟨x, hx, hpx⟩
      exact ⟨x, hx, by simp [hpx]⟩
  by_cases h : (r.notes.filter fun n => n.id != note_id).length < r.notes.length
  · have hres : r.delete_note note_id
        = (true, ({ r with notes := r.notes.filter fun n => n.id != note_id }).save) := by
      unfold Repo.delete_note
      exact if_pos h
    rw [hres]
    exact ⟨⟨fun _ => hiff.mp h, fun _ => rfl⟩, fun hfalse => by simp at hfalse⟩
  · have hall : ∀ n ∈ r.notes, (n.id != note_id) = true := by
      intro n hn
      by_contra hne
      exact h (List.length_filter_lt_length_iff_exists.mpr ⟨n, hn, hne⟩)
    have heq : (r.notes.filter fun n => n.id != note_id) = r.notes :=
      List.filter_eq_self.mpr hall
    have hres : r.delete_note note_id
        = (false, { r with notes := r.notes.filter fun n => n.id != note_id }) := by
      unfold Repo.delete_note
      exact if_neg h
    rw [hres]
    refine ⟨⟨fun hh => by simp at hh, fun hex => absurd (hiff.mpr hex) h⟩, fun _ => ?_⟩
    rw [heq]

/-- C10 witness: a concrete unknown id leaves `repo0` untouched, and a
stored id is reported deleted. -/
theorem C10_witness :
    (repo0.delete_note ("zzz".toList)).2 = repo0
    ∧ (repo0.delete_note ("n1".toList)).1 = true := by
  refine ⟨(C10_delete_note repo0 ("zzz".toList)).2 (by decide), ?_⟩
  exact (C10_delete_note repo0 ("n1".toList)).1.mpr ⟨noteShopping, by decide, by decide⟩

/-! ## C7 — delete_notebook protects the default notebook -/

/-- C7: deleting the reserved default notebook id returns false and leaves
the repository untouched; deleting any other stored notebook id returns
true, removes that notebook from the list and reassigns every one of its
notes to the default notebook. -/
theorem C7_delete_notebook (r : Repo) (now : Nat) (nb : Notebook)
    (hmem : nb ∈ r.notebooks) (hid : nb.id ≠ "default".toList) :
    r.delete_notebook ("default".toList) now = (false, r)
    ∧ (r.delete_notebook nb.id now).1 = true
    ∧ (r.delete_notebook nb.id now).2.notebooks
        = r.notebooks.filter (fun x => x.id != nb.id)
    ∧ nb ∉ (r.delete_notebook nb.id now).2.notebooks
    ∧ (r.delete_notebook nb.id now).2.notes
        = r.notes.map (fun n => if n.notebook_id = nb.id
            then n.move_to_notebook ("default".toList) now else n)
    ∧ ∀ n ∈ r.notes, n.notebook_id = nb.id →
        n.move_to_notebook ("default".toList) now ∈ (r.delete_notebook nb.id now).2.notes := by
  have hdef : r.delete_notebook ("default".toList) now = (false, r) := by
    unfold Repo.delete_notebook
    exact if_pos rfl
  have hne : r.delete_notebook nb.id now
      = (true, ({ r with
          notes := r.notes.map fun (note : Note) => if note.notebook_id = nb.id
            then note.move_to_notebook ("default".toList) now else note,
          notebooks := r.notebooks.filter fun x => x.id != nb.id }).save) := by
    unfold Repo.delete_notebook
    exact if_neg hid
  refine ⟨hdef, ?_, ?_, ?_, ?_, ?_⟩
  · rw [hne]
  · rw [hne]
    rfl
  · intro hmem2
    rw [hne] at hmem2
    have hmem3 : nb ∈ r.notebooks.filter fun x => x.id != nb.id := hmem2
    have := List.of_mem_filter hmem3
    simp at this
  · rw [hne]
    rfl
  · intro n hn hnb
    rw [hne]
    show n.move_to_notebook ("default".toList) now ∈ r.notes.map fun (note : Note) =>
      if note.notebook_id = nb.id then note.move_to_notebook ("default".toList) now else note
    exact List.mem_map.mpr ⟨n, hn, by simp [hnb]⟩

/-- C7 witness: deleting `work` from `repoW` succeeds, removes the notebook
and reassigns its two notes; deleting `default` is refused. -/
theorem C7_witness :
    repoW.delete_notebook ("default".toList) 5 = (false, repoW)
    ∧ (repoW.delete_notebook nbWork.id 5).1 = true
    ∧ nbWork ∉ (repoW.delete_notebook nbWork.id 5).2.notebooks
    ∧ noteW1.move_to_notebook ("default".toList) 5
        ∈ (repoW.delete_notebook nbWork.id 5).2.notes := by
  have h := C7_delete_notebook repoW 5 nbWork (by decide) (by decide)
  exact ⟨h.1, h.2.1, h.2.2.2.1, h.2.2.2.2.2 noteW1 (by decide) (by decide)⟩

/-! ## C8 — search-result navigation wraps around -/

/-- Euclidean-mod fact backing the Up-from-0 wraparound. -/
theorem neg_one_emod_eq (N : Int) (h : 1 ≤ N) : (-1) % N = N - 1 := by
  have h1 : ((-1 : Int) + N * 1) % N = (-1) % N := Int.add_mul_emod_self_left (-1) N 1
  have h2 : ((-1 : Int) + N * 1) = N - 1 := by ring
  rw [h2] at h1
  rw [← h1]
  exact Int.emod_eq_of_lt (by omega) (by omega)

/-- C8: in the search view with a non-empty result list of length N, Down
and Tab advance the selection by one modulo N and Up retreats it by one
modulo N (Python `%` on a positive divisor is Euclidean, so Up from 0
wraps to N-1); with an empty result list the selection is unchanged. -/
theorem C8_search_navigation (a : App) (ev : KeyEvent) :
    ((ev.key = Key.DOWN ∨ ev.key = Key.TAB ∨ ev.key = Key.UP) → a.search_results = [] →
      (a.handle_search_input ev).search_selected_idx = a.search_selected_idx)
    ∧ (a.search_results ≠ [] →
        (((ev.key = Key.DOWN ∨ ev.key = Key.TAB) →
          (a.handle_search_input ev).search_selected_idx
            = (a.search_selected_idx + 1) % (a.search_results.length : Int))
        ∧ (ev.key = Key.UP →
          (a.handle_search_input ev).search_selected_idx
            = (a.search_selected_idx - 1) % (a.search_results.length : Int))
        ∧ (ev.key = Key.UP → a.search_selected_idx = 0 →
          (a.handle_search_input ev).search_selected_idx
            = (a.search_results.length : Int) - 1))) := by
  constructor
  · rintro (hk | hk | hk) hres <;>
      simp [App.handle_search_input, KeyEvent.is_printable, hres, hk]
  · intro hne
    have hlen : (1 : Int) ≤ (a.search_results.length : Int) := by
      have := List.length_pos.mpr hne
      omega
    refine ⟨?_, ?_, ?_⟩
    · rintro (hk | hk) <;>
        simp [App.handle_search_input, KeyEvent.is_printable, hne, hk]
    · intro hk
      simp [App.handle_search_input, KeyEvent.is_printable, hne, hk]
    · intro hk h0
      have hstep : (a.handle_search_input ev).search_selected_idx
          = (a.search_selected_idx - 1) % (a.search_results.length : Int) := by
        simp [App.handle_search_input, KeyEvent.is_printable, hne, hk]
      rw [hstep, h0]
      rw [show ((0 : Int) - 1) = -1 by ring]
      exact neg_one_emod_eq _ hlen

/-- C8 witness: with two results, Down advances 0 to 1, Up wraps 0 to 1 as
well (1 = 2-1), and with no results Up leaves the selection alone. -/
theorem C8_witness :
    ({ app0 with search_results := [noteShopping, noteMeeting]
     }.handle_search_input { key := Key.DOWN }).search_selected_idx = 1
    ∧ ({ app0 with search_results := [noteShopping, noteMeeting]
       }.handle_search_input { key := Key.UP }).search_selected_idx = 1
    ∧ (app0.handle_search_input { key := Key.UP }).search_selected_idx
        = app0.search_selected_idx := by
  refine ⟨?_, ?_, ?_⟩
  · have h := (C8_search_navigation
      { app0 with search_results := [noteShopping, noteMeeting] } { key := Key.DOWN }).2
      (by decide)
    rw [h.1 (Or.inl rfl)]
    decide
  · have h := (C8_search_navigation
      { app0 with search_results := [noteShopping, noteMeeting] } { key := Key.UP }).2
      (by decide)
    rw [h.2.2 rfl (by decide)]
    decide
  · exact (C8_search_navigation app0 { key := Key.UP }).1 (Or.inr (Or.inr rfl)) (by decide)

/-! ## C5 — search semantics -/

/-- C5: the empty query returns no results; a non-empty query returns
exactly the stored notes whose lowercased title or content contains the
lowercased query as a contiguous substring, ordered by `updated_at`
descending; and every query edit (printable append or backspace on a
non-empty query) recomputes the results from the repository and resets the
selection to 0. -/
theorem C5_search (r : Repo) (q : Str) (a : App) (ev : KeyEvent) :
    (r.search_notes [] = [])
    ∧ (q ≠ [] →
        ((r.search_notes q).Perm (r.notes.filter fun note => note.matches_search q)
        ∧ (∀ n : Note, n ∈ r.search_notes q ↔ n ∈ r.notes ∧
            (lower q <:+: lower n.title ∨ lower q <:+: lower n.content))
        ∧ (r.search_notes q).Sorted updatedDesc))
    ∧ ((ev.is_printable = true ∨ (ev.key = Key.BACKSPACE ∧ a.search_query ≠ [])) →
        ((a.handle_search_input ev).search_selected_idx = 0
        ∧ (a.handle_search_input ev).search_results
            = a.repo.search_notes (a.handle_search_input ev).search_query)) := by
  refine ⟨by simp [Repo.search_notes], ?_, ?_⟩
  · intro hq
    have hres : r.search_notes q
        = sortByUpdatedDesc (r.notes.filter fun note => note.matches_search q) := by
      unfold Repo.search_notes
      exact if_neg hq
    refine ⟨?_, ?_, ?_⟩
    · rw [hres]
      exact List.perm_insertionSort updatedDesc _
    · intro n
      rw [hres]
      unfold sortByUpdatedDesc
      rw [(List.perm_insertionSort updatedDesc _).mem_iff, List.mem_filter]
      simp [Note.matches_search]
    · rw [hres]
      exact List.sorted_insertionSort updatedDesc _
  · intro h
    rcases h with hp | ⟨hb, hq2⟩
    · have hkey : ev.key = Key.CHAR := by
        have h2 := hp
        simp [KeyEvent.is_printable] at h2
        exact h2.1.1
      constructor <;>
        simp [App.handle_search_input, hkey, hp, App.update_search]
    · have hnp : ev.is_printable = false := by
        simp [KeyEvent.is_printable, hb]
      constructor <;>
        simp [App.handle_search_input, hb, hnp, hq2, App.update_search]

/-- C5 witness: over `repo0`, the empty query returns nothing, the query
`shop` finds the shopping note but not the meeting note, and a printable
edit resets the selection to 0. -/
theorem C5_witness :
    repo0.search_notes [] = []
    ∧ noteShopping ∈ repo0.search_notes ("shop".toList)
    ∧ noteMeeting ∉ repo0.search_notes ("shop".toList)
    ∧ ({ app0 with search_selected_idx := 1
       }.handle_search_input { key := Key.CHAR, char := ['s'] }).search_selected_idx = 0 := by
  have h := C5_search repo0 ("shop".toList)
    { app0 with search_selected_idx := 1 } { key := Key.CHAR, char := ['s'] }
  refine ⟨h.1, ?_, ?_, ?_⟩
  · exact ((h.2.1 (by decide)).2.1 noteShopping).mpr ⟨by decide, by decide⟩
  · intro hmem
    have h2 := ((h.2.1 (by decide)).2.1 noteMeeting).mp hmem
    rcases h2 with ⟨-, hbad⟩
    revert hbad
    decide
  · exact (h.2.2 (Or.inl (by decide))).1

/-! ## C2 — the data effect of rendering -/

/-- `app0` in the editor over `noteShopping`, buffer modified to the single
line `X`. -/
def appEdX : App :=
  { app0 with
    state := AppState.EDITOR,
    editing_note := some noteShopping,
    editor := { content := [['X']], cursor_line := 0, cursor_col := 1,
                scroll_offset := 0, modified := true } }

/-- C2 counterexample: one render step in the editor view does not leave
the note being edited unchanged — `_render_editor_view` assigns
`"\n".join(editor_content)` to `editing_note.content`, so with a modified
buffer the render step changes application data. -/
theorem C2_render_mutates_editing_note :
    appEdX.render_step.editing_note ≠ appEdX.editing_note
    ∧ appEdX.render_step ≠ appEdX := by
  constructor <;> decide

/-- C2 amended: a render step performs no repository persist and leaves the
notebooks, the whole session state (view, editor buffer, selections,
search, input buffer, status) unchanged; for every view other than the
editor it is the identity on application data, while the editor-view render
copies the joined editor buffer into the content of the note being edited —
in memory only, also visible through that note's alias in the repository's
note list. -/
theorem C2_render_effects (a : App) :
    a.render_step.repo.saves = a.repo.saves
    ∧ a.render_step.repo.disk_notes = a.repo.disk_notes
    ∧ a.render_step.repo.disk_notebooks = a.repo.disk_notebooks
    ∧ a.render_step.repo.notebooks = a.repo.notebooks
    ∧ a.render_step.state = a.state
    ∧ a.render_step.editor = a.editor
    ∧ a.render_step.selected_notebook_idx = a.selected_notebook_idx
    ∧ a.render_step.selected_note_idx = a.selected_note_idx
    ∧ a.render_step.focus_panel = a.focus_panel
    ∧ a.render_step.search_query = a.search_query
    ∧ a.render_step.search_results = a.search_results
    ∧ a.render_step.search_selected_idx = a.search_selected_idx
    ∧ a.render_step.input_buffer = a.input_buffer
    ∧ a.render_step.status_message = a.status_message
    ∧ (a.state ≠ AppState.EDITOR → a.render_step = a)
    ∧ (a.editing_note = none → a.render_step = a)
    ∧ (∀ note : Note, a.state = AppState.EDITOR → a.editing_note = some note →
        a.render_step.editing_note = some { note with content := joinLines a.editor.content }
        ∧ a.render_step.repo.notes = a.repo.notes.map fun n =>
            if n.id = note.id then { n with content := joinLines a.editor.content } else n) := by
  cases hs : a.state <;> cases hn : a.editing_note <;>
    simp [App.render_step, hs, hn]

/-- C2 witness: the amended statement evaluated on the concrete editor
state `appEdX` and on the non-editor state `app0`. -/
theorem C2_witness :
    appEdX.render_step.repo.saves = appEdX.repo.saves
    ∧ appEdX.render_step.editing_note
        = some { noteShopping with content := joinLines appEdX.editor.content }
    ∧ app0.render_step = app0 := by
  obtain ⟨h1, -, -, -, -, -, -, -, -, -, -, -, -, -, -, -, hed⟩ := C2_render_effects appEdX
  obtain ⟨-, -, -, -, -, -, -, -, -, -, -, -, -, -, hid, -, -⟩ := C2_render_effects app0
  exact ⟨h1, (hed noteShopping rfl rfl).1, hid (by decide)⟩

/-! ## C3 — escape from the editor persists iff modified -/

/-- Behaviour of the `update_note` replacement loop when a note with the
given id is stored: it reports success, and in the updated list the first
note with that id is the replacement. -/
theorem replaceById_found (l : List Note) (note : Note)
    (h : ∃ n ∈ l, n.id = note.id) :
    (replaceById l note).2 = true
    ∧ (replaceById l note).1.find? (fun n => n.id == note.id) = some note := by
  induction l with
  | nil =>
    rcases h with ⟨n, hn, -⟩
    cases hn
  | cons x rest ih =>
    by_cases hx : x.id = note.id
    · unfold replaceById
      rw [if_pos hx]
      exact ⟨rfl, by simp⟩
    · unfold replaceById
      rw [if_neg hx]
      have h2 : ∃ n ∈ rest, n.id = note.id := by
        rcases h with ⟨n, hn, hid⟩
        rcases List.mem_cons.mp hn with he | hr
        · exact absurd (he ▸ hid) hx
        · exact ⟨n, hr, hid⟩
      obtain ⟨hf, hfind⟩ := ih h2
      refine ⟨hf, ?_⟩
      rw [List.find?_cons_of_neg _ (by simp [hx])]
      exact hfind

/-- `Repository.update_note` when the note's id is stored: the first match
is replaced and the repository persists. -/
theorem update_note_found (r : Repo) (note : Note)
    (h : ∃ n ∈ r.notes, n.id = note.id) :
    r.update_note note = ({ r with notes := (replaceById r.notes note).1 }).save := by
  unfold Repo.update_note
  rw [if_pos (replaceById_found r.notes note h).1]

/-- C3: pressing Escape in the editor always moves to the list view; when
the buffer is modified, the note is first persisted — content replaced by
the newline-join of the editor lines, the stored note with that id updated,
and the repository saved to disk — and when it is not modified the
repository is untouched. -/
theorem C3_editor_escape (a : App) (note : Note) (now : Nat) (vh : Int)
    (hstate : a.state = AppState.EDITOR)
    (hnote : a.editing_note = some note)
    (hin : ∃ n ∈ a.repo.notes, n.id = note.id) :
    (a.handle_editor_input { key := Key.ESCAPE } now vh).state = AppState.LIST
    ∧ (a.editor.modified = false →
        (a.handle_editor_input { key := Key.ESCAPE } now vh).repo = a.repo)
    ∧ (a.editor.modified = true →
        ((a.handle_editor_input { key := Key.ESCAPE } now vh).repo.get_note note.id
            = some (note.update_content note.title (joinLines a.editor.content) now)
        ∧ (a.handle_editor_input { key := Key.ESCAPE } now vh).repo.saves = a.repo.saves + 1
        ∧ (a.handle_editor_input { key := Key.ESCAPE } now vh).repo.disk_notes
            = (a.handle_editor_input { key := Key.ESCAPE } now vh).repo.notes
        ∧ (a.handle_editor_input { key := Key.ESCAPE } now vh).editor.modified = false)) := by
  have hres : a.handle_editor_input { key := Key.ESCAPE } now vh
      = { (if a.editor.modified then a.save_note now else a) with state := AppState.LIST } := by
    simp [App.handle_editor_input]
  by_cases hmod : a.editor.modified
  · have hsave : a.save_note now
        = { a with
            editing_note := some (note.update_content note.title (joinLines a.editor.content) now),
            repo := a.repo.update_note
              (note.update_content note.title (joinLines a.editor.content) now),
            editor := { a.editor with modified := false },
            status_message := "Note saved".toList } := by
      unfold App.save_note
      rw [hnote]
    have hin2 : ∃ n ∈ a.repo.notes,
        n.id = (note.update_content note.title (joinLines a.editor.content) now).id := hin
    have hupd := update_note_found a.repo
      (note.update_content note.title (joinLines a.editor.content) now) hin2
    refine ⟨?_, ?_, ?_⟩
    · rw [hres]
    · intro hfalse
      rw [hmod] at hfalse
      cases hfalse
    · intro _
      rw [hres, if_pos hmod, hsave, hupd]
      have hfind := (replaceById_found a.repo.notes
        (note.update_content note.title (joinLines a.editor.content) now) hin2).2
      exact ⟨hfind, rfl, rfl, rfl⟩
  · refine ⟨?_, ?_, ?_⟩
    · rw [hres]
    · intro _
      rw [hres, if_neg hmod]
    · intro htrue
      exact absurd htrue hmod

/-- C3 witness: escaping the modified editor `appEdX` lands in the list
view with the shopping note's stored content replaced by the joined buffer. -/
theorem C3_witness :
    (appEdX.handle_editor_input { key := Key.ESCAPE } 9 16).state = AppState.LIST
    ∧ (appEdX.handle_editor_input { key := Key.ESCAPE } 9 16).repo.get_note (noteShopping.id)
        = some (noteShopping.update_content noteShopping.title
            (joinLines appEdX.editor.content) 9) := by
  have h := C3_editor_escape appEdX noteShopping 9 16 rfl rfl
    ⟨noteShopping, by decide, rfl⟩
  exact ⟨h.1, (h.2.2 (by decide)).1⟩

/-! ## C4 — escape disambiguation by timing -/

/-- C4: reading a key from a stream whose first byte is Escape (arriving
within the primary timeout). If nothing further arrives within the 50ms
secondary timeout, the decoder emits a bare Escape; if `[` arrives within
50ms and `A` within the 10ms inter-byte timeout after it, the decoder
emits an Up-arrow event. Arrival instants are absolute; the clock advances
to each byte's arrival as it is consumed. -/
theorem C4_escape_disambiguation
    (timeout t0 t1 t2 now0 : Nat) (rest : List (Nat × Char))
    (h0 : t0 ≤ now0 + timeout) :
    ((∀ p ∈ rest.head?, max now0 t0 + 50 < p.1) →
      (read_key timeout { pending := (t0, Char.ofNat 27) :: rest, now := now0 }).1
        = some { key := Key.ESCAPE })
    ∧ (t1 ≤ max now0 t0 + 50 → t2 ≤ max (max now0 t0) t1 + 10 →
      (read_key timeout
          { pending := [(t0, Char.ofNat 27), (t1, '['), (t2, 'A')], now := now0 }).1
        = some { key := Key.UP }) := by
  have hmax : max (max now0 t0) t0 = max now0 t0 := Nat.max_eq_left (Nat.le_max_right _ _)
  constructor
  · intro hrest
    cases rest with
    | nil =>
      simp [read_key, has_input, read_char, handle_escape_sequence, h0, hmax]
    | cons p r2 =>
      obtain ⟨pt, pc⟩ := p
      have hp : ¬ (pt ≤ max now0 t0 + 50) := by
        have := hrest (pt, pc) (by simp)
        omega
      simp [read_key, has_input, read_char, handle_escape_sequence, h0, hmax, hp]
  · intro hb1 hb2
    have ht1 : t1 ≤ max (max now0 t0) t1 + 10 :=
      Nat.le_trans (Nat.le_max_right _ _) (Nat.le_add_right _ _)
    have hmax2 : max (max (max now0 t0) t1) t1 = max (max now0 t0) t1 :=
      Nat.max_eq_left (Nat.le_max_right _ _)
    have hl1 : seqLookup ['['] = none := by decide
    have hl2 : seqLookup ['[', 'A'] = some Key.UP := by decide
    simp [read_key, has_input, read_char, handle_escape_sequence, esc_loop,
          h0, hmax, hb1, hb2, ht1, hmax2, hl1, hl2]

/-- C4 witness: Escape alone at instant 0 decodes as Escape; Escape, `[` at
5ms and `A` at 12ms decode as Up-arrow. -/
theorem C4_witness :
    (read_key 100 { pending := [(0, Char.ofNat 27)], now := 0 }).1
      = some { key := Key.ESCAPE }
    ∧ (read_key 100 { pending := [(0, Char.ofNat 27), (5, '['), (12, 'A')], now := 0 }).1
      = some { key := Key.UP } := by
  constructor
  · exact (C4_escape_disambiguation 100 0 5 12 0 [] (by decide)).1 (by simp)
  · exact (C4_escape_disambiguation 100 0 5 12 0 [] (by decide)).2 (by decide) (by decide)

/-! ## C6 — list-view selection clamping -/

/-- A repository holding no notebooks at all. The repository API never
produces this (`load` always reinserts the default notebook), but the
list-input handler can be evaluated on it. -/
def repoNoNb : Repo :=
  { notebooks := [], notes := [], disk_notebooks := [], disk_notes := [], saves := 0 }

/-- `app0` over the empty repository, notebooks panel focused. -/
def appNoNb : App := { app0 with repo := repoNoNb, focus_panel := Panel.notebooks }

/-- C6 counterexample: with an empty notebook list, a down-move sets the
notebook selection to `min(0+1, len-1) = -1` — neither within `[0, N-1]`
nor 0 — so the claim's "every selection mutation keeps the index within
[0, N-1] (or 0 when the list is empty)" fails for the notebooks panel as
stated over arbitrary lists. -/
theorem C6_counterexample :
    (appNoNb.handle_list_input { key := Key.DOWN }).selected_notebook_idx = -1
    ∧ ¬ (0 ≤ (appNoNb.handle_list_input { key := Key.DOWN }).selected_notebook_idx) := by
  constructor <;> decide

/-- `listNotes` only depends on the repository and the selected notebook. -/
theorem listNotes_congr (x y : App) (hr : x.repo = y.repo)
    (hs : x.selected_notebook_idx = y.selected_notebook_idx) :
    x.listNotes = y.listNotes := by
  unfold App.listNotes App.listCurrentNb App.listNotebooks Repo.get_all_notebooks
  rw [hr, hs]

/-- An event cannot be both an up-move and a down-move. -/
theorem up_down_exclusive (ev : KeyEvent)
    (hu : ev.key = Key.UP ∨ eventLowerChar ev = ['k'])
    (hd : ev.key = Key.DOWN ∨ eventLowerChar ev = ['j']) : False := by
  rcases hu with hu | hu <;> rcases hd with hd | hd
  · rw [hu] at hd
    cases hd
  · simp [eventLowerChar, hu] at hd
  · simp [eventLowerChar, hd] at hu
  · rw [hu] at hd
    cases hd

/-- The down-move branch of `_handle_list_input`. -/
theorem handle_list_down (a : App) (ev : KeyEvent)
    (h1 : ev.key = Key.DOWN ∨ eventLowerChar ev = ['j']) :
    a.handle_list_input ev
      = if a.focus_panel = Panel.notebooks then
          { a with
            selected_notebook_idx :=
              min (a.selected_notebook_idx + 1) ((a.listNotebooks.length : Int) - 1),
            selected_note_idx := 0 }
        else
          { a with
            selected_note_idx :=
              min (a.selected_note_idx + 1) (max 0 ((a.listNotes.length : Int) - 1)) } := by
  unfold App.handle_list_input
  rw [if_pos h1]

/-- The up-move branch of `_handle_list_input`. -/
theorem handle_list_up (a : App) (ev : KeyEvent)
    (h1 : ev.key = Key.UP ∨ eventLowerChar ev = ['k']) :
    a.handle_list_input ev
      = if a.focus_panel = Panel.notebooks then
          { a with
            selected_notebook_idx := max (a.selected_notebook_idx - 1) 0,
            selected_note_idx := 0 }
        else
          { a with
            selected_note_idx := max (a.selected_note_idx - 1) 0 } := by
  have h0 : ¬ (ev.key = Key.DOWN ∨ eventLowerChar ev = ['j']) := by
    intro hd
    exact up_down_exclusive ev h1 hd
  unfold App.handle_list_input
  rw [if_neg h0, if_pos h1]

set_option maxHeartbeats 2000000 in
/-- Every `_handle_list_input` branch other than the two moves leaves the
repository and both selection indices untouched. -/
theorem handle_list_untouched (a : App) (ev : KeyEvent)
    (h1 : ¬ (ev.key = Key.DOWN ∨ eventLowerChar ev = ['j']))
    (h2 : ¬ (ev.key = Key.UP ∨ eventLowerChar ev = ['k'])) :
    (a.handle_list_input ev).repo = a.repo
    ∧ (a.handle_list_input ev).selected_notebook_idx = a.selected_notebook_idx
    ∧ (a.handle_list_input ev).selected_note_idx = a.selected_note_idx := by
  unfold App.handle_list_input
  rw [if_neg h1, if_neg h2]
  by_cases c3 : ev.key = Key.LEFT ∨ eventLowerChar ev = ['h']
  · rw [if_pos c3]
    exact ⟨rfl, rfl, rfl⟩
  rw [if_neg c3]
  by_cases c4 : ev.key = Key.RIGHT ∨ eventLowerChar ev = ['l']
  · rw [if_pos c4]
    exact ⟨rfl, rfl, rfl⟩
  rw [if_neg c4]
  by_cases c5 : ev.key = Key.TAB
  · rw [if_pos c5]
    exact ⟨rfl, rfl, rfl⟩
  rw [if_neg c5]
  by_cases c6 : eventLowerChar ev = ['n']
  · rw [if_pos c6]
    exact ⟨rfl, rfl, rfl⟩
  rw [if_neg c6]
  by_cases c7 : ev.char = ['N']
  · rw [if_pos c7]
    exact ⟨rfl, rfl, rfl⟩
  rw [if_neg c7]
  by_cases c8 : eventLowerChar ev = ['e'] ∨ ev.key = Key.ENTER
  · rw [if_pos c8]
    by_cases c8i : a.focus_panel = Panel.notes ∧ a.listNotes ≠ []
    · rw [if_pos c8i]
      exact ⟨rfl, rfl, rfl⟩
    · rw [if_neg c8i]
      exact ⟨rfl, rfl, rfl⟩
  rw [if_neg c8]
  by_cases c9 : eventLowerChar ev = ['d']
  · rw [if_pos c9]
    by_cases c9i : a.focus_panel = Panel.notes ∧ a.listNotes ≠ []
    · rw [if_pos c9i]
      exact ⟨rfl, rfl, rfl⟩
    · rw [if_neg c9i]
      cases hc : a.listCurrentNb with
      | none => exact ⟨rfl, rfl, rfl⟩
      | some nb =>
        dsimp only
        by_cases c9j : a.focus_panel = Panel.notebooks ∧ nb.id ≠ "default".toList
        · rw [if_pos c9j]
          exact ⟨rfl, rfl, rfl⟩
        · rw [if_neg c9j]
          exact ⟨rfl, rfl, rfl⟩
  rw [if_neg c9]
  by_cases c10 : eventLowerChar ev = ['/']
  · rw [if_pos c10]
    exact ⟨rfl, rfl, rfl⟩
  rw [if_neg c10]
  by_cases c11 : eventLowerChar ev = ['?']
  · rw [if_pos c11]
    exact ⟨rfl, rfl, rfl⟩
  rw [if_neg c11]
  by_cases c12 : eventLowerChar ev = ['q'] ∨ ev.key = Key.CTRL_Q
  · rw [if_pos c12]
    exact ⟨rfl, rfl, rfl⟩
  rw [if_neg c12]
  by_cases c13 : ev.key = Key.CTRL_C
  · rw [if_pos c13]
    exact ⟨rfl, rfl, rfl⟩
  rw [if_neg c13]
  exact ⟨rfl, rfl, rfl⟩

/-- C6 amended: in the list view, provided the notebook list is non-empty
(the repository guarantees this: the default notebook always exists), every
key event keeps the notebook selection within `[0, N-1]` and the note
selection within `[0, M-1]` (0 when the note list is empty), the repository
is untouched, and an up-move from index 0 stays at 0. With an empty
notebook list a down-move in the notebooks panel instead produces -1
(see the counterexample), a state the application never reaches. -/
theorem C6_list_selection_clamped (a : App) (ev : KeyEvent)
    (hnb : a.repo.notebooks ≠ [])
    (hi : 0 ≤ a.selected_notebook_idx
          ∧ a.selected_notebook_idx < (a.repo.notebooks.length : Int))
    (hj : 0 ≤ a.selected_note_idx
          ∧ a.selected_note_idx ≤ max 0 ((a.listNotes.length : Int) - 1)) :
    (a.handle_list_input ev).repo = a.repo
    ∧ (0 ≤ (a.handle_list_input ev).selected_notebook_idx
       ∧ (a.handle_list_input ev).selected_notebook_idx < (a.repo.notebooks.length : Int))
    ∧ (0 ≤ (a.handle_list_input ev).selected_note_idx
       ∧ (a.handle_list_input ev).selected_note_idx
           ≤ max 0 (((a.handle_list_input ev).listNotes.length : Int) - 1))
    ∧ ((ev.key = Key.UP ∨ eventLowerChar ev = ['k']) → a.focus_panel = Panel.notebooks →
        a.selected_notebook_idx = 0 →
        (a.handle_list_input ev).selected_notebook_idx = 0)
    ∧ ((ev.key = Key.UP ∨ eventLowerChar ev = ['k']) → a.focus_panel = Panel.notes →
        a.selected_note_idx = 0 →
        (a.handle_list_input ev).selected_note_idx = 0) := by
  have hN : 1 ≤ (a.repo.notebooks.length : Int) := by
    have := List.length_pos.mpr hnb
    omega
  have hNlist : (a.listNotebooks.length : Int) = (a.repo.notebooks.length : Int) := rfl
  obtain ⟨hi0, hi1⟩ := hi
  obtain ⟨hj0, hj1⟩ := hj
  by_cases hdown : ev.key = Key.DOWN ∨ eventLowerChar ev = ['j']
  · rw [handle_list_down a ev hdown]
    by_cases hfoc : a.focus_panel = Panel.notebooks
    · rw [if_pos hfoc]
      refine ⟨rfl, ⟨?_, ?_⟩, ⟨le_refl 0, le_max_left 0 _⟩, ?_, ?_⟩
      · show 0 ≤ min (a.selected_notebook_idx + 1) ((a.listNotebooks.length : Int) - 1)
        omega
      · show min (a.selected_notebook_idx + 1) ((a.listNotebooks.length : Int) - 1)
            < (a.repo.notebooks.length : Int)
        omega
      · intro hk _ _
        exact absurd hdown (fun hd => up_down_exclusive ev hk hd)
      · intro hk _ _
        exact absurd hdown (fun hd => up_down_exclusive ev hk hd)
    · rw [if_neg hfoc]
      have hsame : ({ a with
          selected_note_idx :=
            min (a.selected_note_idx + 1) (max 0 ((a.listNotes.length : Int) - 1))
          } : App).listNotes = a.listNotes := rfl
      refine ⟨rfl, ⟨hi0, hi1⟩, ⟨?_, ?_⟩, ?_, ?_⟩
      · show 0 ≤ min (a.selected_note_idx + 1) (max 0 ((a.listNotes.length : Int) - 1))
        omega
      · rw [hsame]
        show min (a.selected_note_idx + 1) (max 0 ((a.listNotes.length : Int) - 1))
            ≤ max 0 ((a.listNotes.length : Int) - 1)
        omega
      · intro hk _ _
        exact absurd hdown (fun hd => up_down_exclusive ev hk hd)
      · intro hk _ _
        exact absurd hdown (fun hd => up_down_exclusive ev hk hd)
  · by_cases hup : ev.key = Key.UP ∨ eventLowerChar ev = ['k']
    · rw [handle_list_up a ev hup]
      by_cases hfoc : a.focus_panel = Panel.notebooks
      · rw [if_pos hfoc]
        refine ⟨rfl, ⟨?_, ?_⟩, ⟨le_refl 0, le_max_left 0 _⟩, ?_, ?_⟩
        · show 0 ≤ max (a.selected_notebook_idx - 1) 0
          omega
        · show max (a.selected_notebook_idx - 1) 0 < (a.repo.notebooks.length : Int)
          omega
        · intro _ _ h0
          show max (a.selected_notebook_idx - 1) 0 = 0
          omega
        · intro _ _ _
          rfl
      · rw [if_neg hfoc]
        have hsame : ({ a with
            selected_note_idx := max (a.selected_note_idx - 1) 0
            } : App).listNotes = a.listNotes := rfl
        refine ⟨rfl, ⟨hi0, hi1⟩, ⟨?_, ?_⟩, ?_, ?_⟩
        · show 0 ≤ max (a.selected_note_idx - 1) 0
          omega
        · rw [hsame]
          show max (a.selected_note_idx - 1) 0 ≤ max 0 ((a.listNotes.length : Int) - 1)
          omega
        · intro _ hfn _
          exact absurd hfn hfoc
        · intro _ _ h0
          show max (a.selected_note_idx - 1) 0 = 0
          omega
    · obtain ⟨hr, hs1, hs2⟩ := handle_list_untouched a ev hdown hup
      have hsame : (a.handle_list_input ev).listNotes = a.listNotes :=
        listNotes_congr _ _ hr hs1
      rw [hr, hs1, hs2, hsame]
      exact ⟨rfl, ⟨hi0, hi1⟩, ⟨hj0, hj1⟩,
        fun hk _ _ => absurd hk hup, fun hk _ _ => absurd hk hup⟩

/-- C6 witness: a list view over `repo0` (one notebook, two notes): a
down-move in the notes panel keeps the note index within bounds, and an
up-move from note index 0 stays at 0. -/
theorem C6_witness :
    (app0.handle_list_input { key := Key.DOWN }).repo = app0.repo
    ∧ 0 ≤ (app0.handle_list_input { key := Key.DOWN }).selected_note_idx
    ∧ (app0.handle_list_input { key := Key.UP }).selected_note_idx = 0 := by
  have hd := C6_list_selection_clamped app0 { key := Key.DOWN } (by decide)
    (by constructor <;> decide) (by constructor <;> decide)
  have hu := C6_list_selection_clamped app0 { key := Key.UP } (by decide)
    (by constructor <;> decide) (by constructor <;> decide)
  exact ⟨hd.1, hd.2.2.1.1, hu.2.2.2.2 (Or.inl rfl) rfl rfl⟩

/-! ## C9 — editor operations preserve the cursor invariant -/

/-- `getD` after `set` at the written index. -/
theorem getD_set_self {α : Type} (l : List α) (i : Nat) (x d : α) (h : i < l.length) :
    (l.set i x).getD i d = x := by
  rw [List.getD_eq_getElem _ _ (by simpa using h)]
  exact List.getElem_set_self (by simpa using h)

/-- `getD` after `set` at another index. -/
theorem getD_set_ne {α : Type} (l : List α) (i j : Nat) (x d : α) (hne : i ≠ j) :
    (l.set i x).getD j d = l.getD j d := by
  by_cases h : j < l.length
  · rw [List.getD_eq_getElem _ _ (by simpa using h), List.getD_eq_getElem _ _ h]
    exact List.getElem_set_ne hne _
  · rw [List.getD_eq_default _ _ (by simpa using Nat.le_of_not_lt h),
        List.getD_eq_default _ _ (Nat.le_of_not_lt h)]

/-- `getD` after deleting a later entry. -/
theorem getD_eraseIdx_lt {α : Type} (l : List α) (i j : Nat) (d : α)
    (hj : j < i) (hi : i < l.length) :
    (l.eraseIdx i).getD j d = l.getD j d := by
  have hlen : (l.eraseIdx i).length = l.length - 1 := by
    rw [List.length_eraseIdx]
    simp [hi]
  have hj2 : j < (l.eraseIdx i).length := by omega
  rw [List.getD_eq_getElem _ _ hj2, List.getD_eq_getElem _ _ (by omega)]
  exact List.getElem_eraseIdx_of_lt l i j hj2 hj

/-- `getD` at a freshly inserted index. -/
theorem getD_insertIdx_self {α : Type} (l : List α) (n : Nat) (x d : α) (hn : n ≤ l.length) :
    (l.insertIdx n x).getD n d = x := by
  have hlen : (l.insertIdx n x).length = l.length + 1 := List.length_insertIdx n l hn
  rw [List.getD_eq_getElem _ _ (by omega)]
  exact List.getElem_insertIdx_self l x n hn

/-- The editor-cursor invariant of the specification: the line array is
non-empty, the cursor line indexes it, and the cursor column is at most the
current line's length (the lower bounds `0 ≤ _` are inherent in `Nat`; the
source's Python ints never go negative on these paths because every
decrement is guarded). -/
def Editor.Inv (e : Editor) : Prop :=
  e.content ≠ [] ∧ e.cursor_line < e.content.length
    ∧ e.cursor_col ≤ (e.content.getD e.cursor_line []).length

/-- `_adjust_scroll` only changes the scroll offset. -/
theorem adjust_scroll_fields (e : Editor) (vh : Int) :
    (e.adjust_scroll vh).content = e.content
    ∧ (e.adjust_scroll vh).cursor_line = e.cursor_line
    ∧ (e.adjust_scroll vh).cursor_col = e.cursor_col := by
  unfold Editor.adjust_scroll
  split_ifs <;> exact ⟨rfl, rfl, rfl⟩

/-- `_adjust_scroll` preserves the invariant. -/
theorem adjust_scroll_inv (e : Editor) (vh : Int) (h : e.Inv) : (e.adjust_scroll vh).Inv := by
  obtain ⟨h1, h2, h3⟩ := h
  obtain ⟨hc, hl, hcol⟩ := adjust_scroll_fields e vh
  refine ⟨?_, ?_, ?_⟩
  · rw [hc]
    exact h1
  · rw [hc, hl]
    exact h2
  · rw [hc, hl, hcol]
    exact h3

/-- `_insert_char` preserves the invariant for a non-empty inserted string. -/
theorem insert_char_inv (e : Editor) (s : Str) (hs : s ≠ []) (h : e.Inv) :
    (e.insert_char s).Inv := by
  obtain ⟨h1, h2, h3⟩ := h
  have hs1 : 0 < s.length := List.length_pos.mpr hs
  have hpos : 0 < e.content.length := List.length_pos.mpr h1
  unfold Editor.insert_char
  refine ⟨?_, ?_, ?_⟩
  · apply List.length_pos.mp
    simpa using hpos
  · simpa using h2
  · rw [getD_set_self _ _ _ _ h2]
    simp only [List.length_append, List.length_take, List.length_drop]
    omega

/-- `_insert_newline` preserves the invariant. -/
theorem insert_newline_inv (e : Editor) (vh : Int) (h : e.Inv) :
    (e.insert_newline vh).Inv := by
  obtain ⟨h1, h2, h3⟩ := h
  unfold Editor.insert_newline
  apply adjust_scroll_inv
  have hset : (e.content.set e.cursor_line
      ((e.content.getD e.cursor_line []).take e.cursor_col)).length = e.content.length := by
    simp
  have hle : e.cursor_line + 1 ≤ (e.content.set e.cursor_line
      ((e.content.getD e.cursor_line []).take e.cursor_col)).length := by
    omega
  have hlen : ((e.content.set e.cursor_line
      ((e.content.getD e.cursor_line []).take e.cursor_col)).insertIdx (e.cursor_line + 1)
      ((e.content.getD e.cursor_line []).drop e.cursor_col)).length
      = e.content.length + 1 := by
    rw [List.length_insertIdx _ _ hle, hset]
  refine ⟨?_, ?_, ?_⟩
  · apply List.length_pos.mp
    rw [hlen]
    omega
  · show e.cursor_line + 1 < _
    rw [hlen]
    omega
  · show 0 ≤ _
    exact Nat.zero_le _

/-- `_delete_char_before` (backspace) preserves the invariant. -/
theorem delete_char_before_inv (e : Editor) (vh : Int) (h : e.Inv) :
    (e.delete_char_before vh).Inv := by
  obtain ⟨h1, h2, h3⟩ := h
  have hpos : 0 < e.content.length := List.length_pos.mpr h1
  unfold Editor.delete_char_before
  split_ifs with hcol hline
  · refine ⟨?_, ?_, ?_⟩
    · apply List.length_pos.mp
      simpa using hpos
    · simpa using h2
    · rw [getD_set_self _ _ _ _ h2]
      simp only [List.length_append, List.length_take, List.length_drop]
      omega
  · apply adjust_scroll_inv
    have hle : e.cursor_line < (e.content.set (e.cursor_line - 1)
        (e.content.getD (e.cursor_line - 1) [] ++ e.content.getD e.cursor_line [])).length := by
      simpa using h2
    have hlen : ((e.content.set (e.cursor_line - 1)
        (e.content.getD (e.cursor_line - 1) [] ++ e.content.getD e.cursor_line
          [])).eraseIdx e.cursor_line).length = e.content.length - 1 := by
      rw [List.length_eraseIdx]
      simp [h2]
    refine ⟨?_, ?_, ?_⟩
    · show ((e.content.set (e.cursor_line - 1)
          (e.content.getD (e.cursor_line - 1) [] ++ e.content.getD e.cursor_line
            [])).eraseIdx e.cursor_line) ≠ []
      apply List.length_pos.mp
      rw [hlen]
      omega
    · show e.cursor_line - 1 < ((e.content.set (e.cursor_line - 1)
          (e.content.getD (e.cursor_line - 1) [] ++ e.content.getD e.cursor_line
            [])).eraseIdx e.cursor_line).length
      rw [hlen]
      omega
    · show (e.content.getD (e.cursor_line - 1) []).length
          ≤ (((e.content.set (e.cursor_line - 1)
              (e.content.getD (e.cursor_line - 1) [] ++ e.content.getD e.cursor_line
                [])).eraseIdx e.cursor_line).getD (e.cursor_line - 1) []).length
      rw [getD_eraseIdx_lt _ _ _ _ (by omega) hle,
          getD_set_self _ _ _ _ (by omega)]
      simp
  · exact ⟨h1, h2, h3⟩

/-- `_delete_char_at` (delete) preserves the invariant. -/
theorem delete_char_at_inv (e : Editor) (h : e.Inv) : (e.delete_char_at).Inv := by
  obtain ⟨h1, h2, h3⟩ := h
  have hpos : 0 < e.content.length := List.length_pos.mpr h1
  unfold Editor.delete_char_at
  dsimp only
  split_ifs with hcol hline
  · refine ⟨?_, ?_, ?_⟩
    · apply List.length_pos.mp
      simpa using hpos
    · simpa using h2
    · show e.cursor_col ≤ ((e.content.set e.cursor_line
          ((e.content.getD e.cursor_line []).take e.cursor_col ++
            (e.content.getD e.cursor_line []).drop (e.cursor_col + 1))).getD
          e.cursor_line []).length
      rw [getD_set_self _ _ _ _ h2]
      simp only [List.length_append, List.length_take, List.length_drop]
      omega
  · have hcl : e.cursor_line + 1 < e.content.length := by omega
    have hle : e.cursor_line + 1 < (e.content.set e.cursor_line
        (e.content.getD e.cursor_line [] ++ e.content.getD (e.cursor_line + 1) [])).length := by
      simpa using hcl
    have hlen : ((e.content.set e.cursor_line
        (e.content.getD e.cursor_line [] ++ e.content.getD (e.cursor_line + 1)
          [])).eraseIdx (e.cursor_line + 1)).length = e.content.length - 1 := by
      rw [List.length_eraseIdx]
      simp [hcl]
    refine ⟨?_, ?_, ?_⟩
    · show ((e.content.set e.cursor_line
          (e.content.getD e.cursor_line [] ++ e.content.getD (e.cursor_line + 1)
            [])).eraseIdx (e.cursor_line + 1)) ≠ []
      apply List.length_pos.mp
      rw [hlen]
      omega
    · show e.cursor_line < ((e.content.set e.cursor_line
          (e.content.getD e.cursor_line [] ++ e.content.getD (e.cursor_line + 1)
            [])).eraseIdx (e.cursor_line + 1)).length
      rw [hlen]
      omega
    · show e.cursor_col ≤ (((e.content.set e.cursor_line
          (e.content.getD e.cursor_line [] ++ e.content.getD (e.cursor_line + 1)
            [])).eraseIdx (e.cursor_line + 1)).getD e.cursor_line []).length
      rw [getD_eraseIdx_lt _ _ _ _ (by omega) hle,
          getD_set_self _ _ _ _ h2]
      simp only [List.length_append]
      omega
  · exact ⟨h1, h2, h3⟩

/-- `_move_cursor_up` preserves the invariant. -/
theorem move_cursor_up_inv (e : Editor) (vh : Int) (h : e.Inv) :
    (e.move_cursor_up vh).Inv := by
  obtain ⟨h1, h2, h3⟩ := h
  unfold Editor.move_cursor_up
  split_ifs with hline
  · apply adjust_scroll_inv
    refine ⟨h1, ?_, ?_⟩
    · show e.cursor_line - 1 < e.content.length
      omega
    · show min e.cursor_col (e.content.getD (e.cursor_line - 1) []).length
          ≤ (e.content.getD (e.cursor_line - 1) []).length
      exact min_le_right _ _
  · exact ⟨h1, h2, h3⟩

/-- `_move_cursor_down` preserves the invariant. -/
theorem move_cursor_down_inv (e : Editor) (vh : Int) (h : e.Inv) :
    (e.move_cursor_down vh).Inv := by
  obtain ⟨h1, h2, h3⟩ := h
  have hpos : 0 < e.content.length := List.length_pos.mpr h1
  unfold Editor.move_cursor_down
  split_ifs with hline
  · apply adjust_scroll_inv
    refine ⟨h1, ?_, ?_⟩
    · show e.cursor_line + 1 < e.content.length
      omega
    · show min e.cursor_col (e.content.getD (e.cursor_line + 1) []).length
          ≤ (e.content.getD (e.cursor_line + 1) []).length
      exact min_le_right _ _
  · exact ⟨h1, h2, h3⟩

/-- `_move_cursor_left` preserves the invariant. -/
theorem move_cursor_left_inv (e : Editor) (vh : Int) (h : e.Inv) :
    (e.move_cursor_left vh).Inv := by
  obtain ⟨h1, h2, h3⟩ := h
  unfold Editor.move_cursor_left
  split_ifs with hcol hline
  · refine ⟨h1, h2, ?_⟩
    show e.cursor_col - 1 ≤ (e.content.getD e.cursor_line []).length
    omega
  · apply adjust_scroll_inv
    refine ⟨h1, ?_, ?_⟩
    · show e.cursor_line - 1 < e.content.length
      omega
    · show (e.content.getD (e.cursor_line - 1) []).length
          ≤ (e.content.getD (e.cursor_line - 1) []).length
      exact le_refl _
  · exact ⟨h1, h2, h3⟩

/-- `_move_cursor_right` preserves the invariant. -/
theorem move_cursor_right_inv (e : Editor) (vh : Int) (h : e.Inv) :
    (e.move_cursor_right vh).Inv := by
  obtain ⟨h1, h2, h3⟩ := h
  have hpos : 0 < e.content.length := List.length_pos.mpr h1
  unfold Editor.move_cursor_right
  dsimp only
  split_ifs with hcol hline
  · refine ⟨h1, h2, ?_⟩
    show e.cursor_col + 1 ≤ (e.content.getD e.cursor_line []).length
    omega
  · apply adjust_scroll_inv
    refine ⟨h1, ?_, ?_⟩
    · show e.cursor_line + 1 < e.content.length
      omega
    · exact Nat.zero_le _
  · exact ⟨h1, h2, h3⟩

set_option maxHeartbeats 1600000 in
/-- C9: every editor text operation — printable insert, Enter, Backspace,
Delete, the four cursor moves, Home and End — preserves the cursor
invariant `cursorLine < len(lines) ∧ cursorCol ≤ len(lines[cursorLine])`
on a non-empty line array. -/
theorem C9_editor_invariant (e : Editor) (ev : KeyEvent) (vh : Int) (h : e.Inv) :
    (edit_step e ev vh).Inv := by
  unfold edit_step
  split_ifs with hp h1 h2 h3 h4 h5 h6 h7 h8 h9
  · apply insert_char_inv _ _ _ h
    intro hnil
    have h2 := hp
    simp [KeyEvent.is_printable, hnil] at h2
  · exact insert_newline_inv e vh h
  · exact delete_char_before_inv e vh h
  · exact delete_char_at_inv e h
  · exact move_cursor_up_inv e vh h
  · exact move_cursor_down_inv e vh h
  · exact move_cursor_left_inv e vh h
  · exact move_cursor_right_inv e vh h
  · exact ⟨h.1, h.2.1, Nat.zero_le _⟩
  · exact ⟨h.1, h.2.1, le_refl _⟩
  · exact h

/-- C9 witness: the join-on-backspace example — lines `ab`, `cd`, cursor at
(1,0), Backspace — satisfies the invariant afterwards (the theorem applied
at a concrete editor state and event). -/
theorem C9_witness :
    (edit_step { content := [['a', 'b'], ['c', 'd']], cursor_line := 1, cursor_col := 0,
                 scroll_offset := 0, modified := false } { key := Key.BACKSPACE } 16).Inv :=
  C9_editor_invariant _ _ _ ⟨by decide, by decide, by decide⟩

end NotesTui
